import Mathlib

/-!
Formal model of the selfish-mining simulator in `quant.py`.

Modelling conventions:
* Python floats are modelled as exact rationals (`ℚ`); the literals `6.25`,
  `0.5`, `0.02`, `0.01` become `25/4`, `1/2`, `2/100`, `1/100`.
* Python ints are modelled as `ℤ`; the non-negative loop counter `rounds`
  (`for _ in range(rounds)`) is modelled as `ℕ`.
* The ambient pseudo-random generator (`random.random()`) is modelled as the
  stream of its future draws, `RNG := ℕ → ℚ`; drawing consumes the head of the
  stream.  `random.seed(s)` replaces the stream by `ss s` where
  `ss : SeedStream` is an arbitrary family of streams indexed by the seed; all
  theorems are proved for every such family.  A Python `seed` parameter whose
  default is `None` is modelled as `Option ℤ`.
* Every simulation function takes the current stream and returns the remaining
  stream together with its result, mirroring the sequential consumption of the
  single global generator.
-/

namespace BTCQuant

/-- The future draws of the global generator: draw `n` is `g n`. -/
abbrev RNG : Type := ℕ → ℚ

/-- One call of `random.random()`: the value drawn and the remaining stream. -/
def RNG.next (g : RNG) : ℚ × RNG := (g 0, fun n => g (n + 1))

/-- For each integer seed, the stream produced after `random.seed(s)`. -/
abbrev SeedStream : Type := ℤ → RNG

/-- `if seed is not None: random.seed(seed)` at the top of each simulator. -/
def reseed (ss : SeedStream) (seed : Option ℤ) (g : RNG) : RNG :=
  match seed with
  | none => g
  | some s => ss s

/-- The dataclass `SimulationResult` of `quant.py` (stored fields only). -/
structure SimulationResult where
  alpha : ℚ
  gamma : ℚ
  rounds : ℕ
  attacker_blocks : ℤ
  honest_blocks : ℤ
  block_reward : ℚ := 25 / 4
  avg_tx_fee_per_block : ℚ := 1 / 2
deriving DecidableEq

/-- Property `total_blocks`. -/
def SimulationResult.total_blocks (r : SimulationResult) : ℤ :=
  r.attacker_blocks + r.honest_blocks

/-- Property `attacker_relative_reward`. -/
def SimulationResult.attacker_relative_reward (r : SimulationResult) : ℚ :=
  if r.total_blocks = 0 then 0
  else (r.attacker_blocks : ℚ) / (r.total_blocks : ℚ)

/-- Property `honest_relative_reward`. -/
def SimulationResult.honest_relative_reward (r : SimulationResult) : ℚ :=
  if r.total_blocks = 0 then 0
  else (r.honest_blocks : ℚ) / (r.total_blocks : ℚ)

/-- Property `attacker_revenue_btc`. -/
def SimulationResult.attacker_revenue_btc (r : SimulationResult) : ℚ :=
  (r.attacker_blocks : ℚ) * (r.block_reward + r.avg_tx_fee_per_block)

/-- Property `honest_revenue_btc`. -/
def SimulationResult.honest_revenue_btc (r : SimulationResult) : ℚ :=
  (r.honest_blocks : ℚ) * (r.block_reward + r.avg_tx_fee_per_block)

/-- Property `efficiency_advantage`. -/
def SimulationResult.efficiency_advantage (r : SimulationResult) : ℚ :=
  if r.alpha ≤ 0 then 0
  else r.attacker_relative_reward / r.alpha

/-- The loop body state of `simulate_all_honest`: `(attacker_blocks, honest_blocks)`
after some rounds; `honestLoop` is the `for _ in range(rounds)` loop. -/
def honestLoop (alpha : ℚ) : ℕ → ℤ × ℤ → RNG → (ℤ × ℤ) × RNG
  | 0, st, g => (st, g)
  | n + 1, st, g =>
      let r := (RNG.next g).1
      let g1 := (RNG.next g).2
      if r < alpha then honestLoop alpha n (st.1 + 1, st.2) g1
      else honestLoop alpha n (st.1, st.2 + 1) g1

/-- `simulate_all_honest` of `quant.py`. -/
def simulate_all_honest (ss : SeedStream) (alpha : ℚ) (rounds : ℕ)
    (seed : Option ℤ) (g : RNG) : SimulationResult × RNG :=
  let g0 := reseed ss seed g
  let p := honestLoop alpha rounds (0, 0) g0
  ({ alpha := alpha, gamma := 0, rounds := rounds,
     attacker_blocks := p.1.1, honest_blocks := p.1.2 }, p.2)

/-- The mutable state of the `simulate_selfish_mining` loop. -/
structure SelfishState where
  attacker : ℤ
  honest : ℤ
  lead : ℤ
deriving DecidableEq

/-- One iteration of the `for _ in range(rounds)` loop of
`simulate_selfish_mining`: one draw `r`; if `r < alpha` the attacker extends
(or starts) the private chain, otherwise the honest block is handled by the
three-way case split on `lead`, with a second draw `r_fork` in the `lead == 1`
fork race. -/
def selfishRound (alpha gamma : ℚ) (st : SelfishState) (g : RNG) :
    SelfishState × RNG :=
  let r := (RNG.next g).1
  let g1 := (RNG.next g).2
  if r < alpha then
    (if st.lead = 0 then { st with lead := 1 }
     else { st with lead := st.lead + 1 }, g1)
  else
    if st.lead = 0 then ({ st with honest := st.honest + 1 }, g1)
    else if st.lead = 1 then
      let rf := (RNG.next g1).1
      let g2 := (RNG.next g1).2
      if rf < gamma then ({ st with attacker := st.attacker + 2, lead := 0 }, g2)
      else ({ st with honest := st.honest + 2, lead := 0 }, g2)
    else
      ({ st with attacker := st.attacker + 1, lead := st.lead - 1 }, g1)

/-- The whole `for _ in range(rounds)` loop of `simulate_selfish_mining`. -/
def selfishLoop (alpha gamma : ℚ) : ℕ → SelfishState → RNG → SelfishState × RNG
  | 0, st, g => (st, g)
  | n + 1, st, g =>
      let p := selfishRound alpha gamma st g
      selfishLoop alpha gamma n p.1 p.2

/-- `simulate_selfish_mining` of `quant.py`, including the end-of-run
settlement `if lead > 0: attacker_blocks += lead`. -/
def simulate_selfish_mining (ss : SeedStream) (alpha gamma : ℚ) (rounds : ℕ)
    (seed : Option ℤ) (g : RNG) : SimulationResult × RNG :=
  let g0 := reseed ss seed g
  let p := selfishLoop alpha gamma rounds ⟨0, 0, 0⟩ g0
  let st := p.1
  let attacker := if 0 < st.lead then st.attacker + st.lead else st.attacker
  ({ alpha := alpha, gamma := gamma, rounds := rounds,
     attacker_blocks := attacker, honest_blocks := st.honest }, p.2)

/-- `simulate_selfish_with_defense` of `quant.py`.  The Python code returns the
duplicated no-defense pair early when `not defense_enabled`; here that early
return is the `else` branch. -/
def simulate_selfish_with_defense (ss : SeedStream)
    (alpha gamma_attack gamma_defense : ℚ) (rounds : ℕ)
    (defense_enabled : Bool) (seed : Option ℤ) (g : RNG) :
    (SimulationResult × SimulationResult) × RNG :=
  let p1 := simulate_selfish_mining ss alpha gamma_attack rounds seed g
  if defense_enabled then
    let seed_defense : Option ℤ :=
      match seed with
      | none => none
      | some s => some (s + 1)
    let p2 := simulate_selfish_mining ss alpha gamma_defense rounds seed_defense p1.2
    ((p1.1, p2.1), p2.2)
  else ((p1.1, p1.1), p1.2)

/-- `pool_cooperative_mining` of `quant.py`: simulate at the effective hash
share `max(0, alpha - 0.02*(num_pools - 1))`, then overwrite the stored
`alpha` with the nominal one (`result.alpha = alpha`). -/
def pool_cooperative_mining (ss : SeedStream) (alpha : ℚ) (num_pools : ℤ)
    (gamma : ℚ) (rounds : ℕ) (seed : Option ℤ) (g : RNG) :
    SimulationResult × RNG :=
  let coordination_overhead : ℚ := (2 / 100) * ((num_pools : ℚ) - 1)
  let effective_alpha := max 0 (alpha - coordination_overhead)
  let p := simulate_selfish_mining ss effective_alpha gamma rounds seed g
  ({ p.1 with alpha := alpha }, p.2)

/-- Python `int(x)` on a real value: truncation toward zero. -/
def pyInt (q : ℚ) : ℤ :=
  if 0 ≤ q then ⌊q⌋ else -⌊-q⌋

/-- The numeric fields of the dictionary returned by
`mev_transaction_ordering` (the string `summary` is presentation only). -/
structure MevReport where
  attacker_blocks : ℤ
  mev_extractable_blocks : ℤ
  base_revenue_btc : ℚ
  mev_revenue_btc : ℚ
  total_enhanced_revenue_btc : ℚ
  honest_revenue_btc : ℚ
  revenue_advantage_vs_honest : ℚ
  revenue_per_hashrate : ℚ
deriving DecidableEq

/-- `mev_transaction_ordering` of `quant.py` (numeric fields). -/
def mev_transaction_ordering (ss : SeedStream)
    (alpha mev_extract_probability avg_mev_per_block gamma : ℚ) (rounds : ℕ)
    (seed : Option ℤ) (g : RNG) : MevReport × RNG :=
  let p := simulate_selfish_mining ss alpha gamma rounds seed g
  let attacker_result := p.1
  let mev_blocks :=
    pyInt ((attacker_result.attacker_blocks : ℚ) * mev_extract_probability)
  let total_mev_revenue : ℚ := (mev_blocks : ℚ) * avg_mev_per_block
  let enhanced_revenue := attacker_result.attacker_revenue_btc + total_mev_revenue
  let honest_revenue := attacker_result.honest_revenue_btc
  ({ attacker_blocks := attacker_result.attacker_blocks,
     mev_extractable_blocks := mev_blocks,
     base_revenue_btc := attacker_result.attacker_revenue_btc,
     mev_revenue_btc := total_mev_revenue,
     total_enhanced_revenue_btc := enhanced_revenue,
     honest_revenue_btc := honest_revenue,
     revenue_advantage_vs_honest :=
       (enhanced_revenue - honest_revenue) /
         (if 0 < honest_revenue then honest_revenue else 1),
     revenue_per_hashrate :=
       enhanced_revenue / (if 0 < alpha then alpha else 1 / 100) }, p.2)

/-- The `for i in range(num_chains)` loop of `cross_chain_attack`: runs one
simulation per chain (seed offset `i * 1000` when a seed is given) and
accumulates `total_revenue`.  First argument of the recursion: remaining
chains; second: current chain index `i`. -/
def crossChainLoop (ss : SeedStream) (alpha gamma : ℚ) (rounds : ℕ)
    (seed : Option ℤ) : ℕ → ℕ → ℚ → RNG → ℚ × RNG
  | 0, _, total, g => (total, g)
  | n + 1, i, total, g =>
      let chain_seed : Option ℤ :=
        match seed with
        | none => none
        | some s => some (s + (i : ℤ) * 1000)
      let p := simulate_selfish_mining ss alpha gamma rounds chain_seed g
      crossChainLoop ss alpha gamma rounds seed n (i + 1)
        (total + p.1.attacker_revenue_btc) p.2

/-- The `revenue_comparison` dictionary built by `cross_chain_attack`. -/
structure RevenueComparison where
  single_chain_btc : ℚ
  multi_chain_total_before_cost_btc : ℚ
  multi_chain_total_after_cost_btc : ℚ
  coordination_overhead_percent : ℚ
  multiplier_effect : ℚ
deriving DecidableEq

/-- `cross_chain_attack` of `quant.py` (its `revenue_comparison` output). -/
def cross_chain_attack (ss : SeedStream) (alpha : ℚ) (num_chains : ℤ)
    (gamma : ℚ) (rounds_per_chain : ℕ) (seed : Option ℤ) (g : RNG) :
    RevenueComparison × RNG :=
  let coordination_cost_per_chain : ℚ := 1 / 100
  let coordination_overhead := coordination_cost_per_chain * ((num_chains : ℚ) - 1)
  let q := crossChainLoop ss alpha gamma rounds_per_chain seed num_chains.toNat 0 0 g
  let total_revenue := q.1
  let effective_revenue := total_revenue * (1 - coordination_overhead)
  let p := simulate_selfish_mining ss alpha gamma rounds_per_chain seed q.2
  let single_chain_result := p.1
  ({ single_chain_btc := single_chain_result.attacker_revenue_btc,
     multi_chain_total_before_cost_btc := total_revenue,
     multi_chain_total_after_cost_btc := effective_revenue,
     coordination_overhead_percent := coordination_overhead * 100,
     multiplier_effect :=
       if 0 < single_chain_result.attacker_revenue_btc then
         effective_revenue / single_chain_result.attacker_revenue_btc
       else 1 }, p.2)

/-!
Spec-level machine for the refinement claim about `simulate_selfish_mining`.
-/

/-- Modelled from the spec text of the per-round transition: one draw `r`;
`r < alpha` increases the lead by 1; otherwise the three-way split on `lead`
(`0`: honest block accepted; `1`: fork race decided by a second draw;
`≥ 2`: attacker publishes one block and the honest block is orphaned).  The
final branch is unreachable from `lead ≥ 0` states and leaves the state
unchanged. -/
def claimSelfishRound (alpha gamma : ℚ) (st : SelfishState) (g : RNG) :
    SelfishState × RNG :=
  let r := (RNG.next g).1
  let g1 := (RNG.next g).2
  if r < alpha then ({ st with lead := st.lead + 1 }, g1)
  else if st.lead = 0 then ({ st with honest := st.honest + 1 }, g1)
  else if st.lead = 1 then
    let rf := (RNG.next g1).1
    let g2 := (RNG.next g1).2
    if rf < gamma then ({ st with attacker := st.attacker + 2, lead := 0 }, g2)
    else ({ st with honest := st.honest + 2, lead := 0 }, g2)
  else if 2 ≤ st.lead then
    ({ st with attacker := st.attacker + 1, lead := st.lead - 1 }, g1)
  else (st, g1)

/-- Iterating the spec-level round for the stated number of rounds. -/
def claimSelfishLoop (alpha gamma : ℚ) : ℕ → SelfishState → RNG → SelfishState × RNG
  | 0, st, g => (st, g)
  | n + 1, st, g =>
      let p := claimSelfishRound alpha gamma st g
      claimSelfishLoop alpha gamma n p.1 p.2

/-- The `(attacker_blocks, honest_blocks)` pair the spec text prescribes:
run the spec-level machine from the zero state and flush any remaining
positive lead to the attacker. -/
def claimSelfishSim (ss : SeedStream) (alpha gamma : ℚ) (rounds : ℕ)
    (seed : Option ℤ) (g : RNG) : ℤ × ℤ :=
  let g0 := reseed ss seed g
  let p := claimSelfishLoop alpha gamma rounds ⟨0, 0, 0⟩ g0
  (if 0 < p.1.lead then p.1.attacker + p.1.lead else p.1.attacker, p.1.honest)

/-! Concrete streams used to instantiate theorems with hypotheses. -/

/-- Seed family whose every stream draws 0 forever. -/
def ssZero : SeedStream := fun _ _ => 0

/-- Ambient stream drawing 0 forever. -/
def gZero : RNG := fun _ => 0

/-- Ambient stream whose first draw is 1 and all later draws are 0. -/
def gOne : RNG := fun n => if n = 0 then 1 else 0

/-! Helper lemmas about the selfish-mining loop. -/

lemma selfishRound_bounds (alpha gamma : ℚ) (st : SelfishState) (g : RNG)
    (ha : 0 ≤ st.attacker) (hh : 0 ≤ st.honest) (hl : 0 ≤ st.lead) :
    0 ≤ (selfishRound alpha gamma st g).1.attacker ∧
    0 ≤ (selfishRound alpha gamma st g).1.honest ∧
    0 ≤ (selfishRound alpha gamma st g).1.lead ∧
    (selfishRound alpha gamma st g).1.attacker + (selfishRound alpha gamma st g).1.honest +
        (selfishRound alpha gamma st g).1.lead ≤ st.attacker + st.honest + st.lead + 1 := by
  obtain ⟨a, b, l⟩ := st
  simp only [selfishRound] at *
  split_ifs <;> simp_all <;> omega

lemma selfishLoop_bounds (alpha gamma : ℚ) (n : ℕ) : ∀ (st : SelfishState) (g : RNG),
    0 ≤ st.attacker → 0 ≤ st.honest → 0 ≤ st.lead →
    0 ≤ (selfishLoop alpha gamma n st g).1.attacker ∧
    0 ≤ (selfishLoop alpha gamma n st g).1.honest ∧
    0 ≤ (selfishLoop alpha gamma n st g).1.lead ∧
    (selfishLoop alpha gamma n st g).1.attacker + (selfishLoop alpha gamma n st g).1.honest +
        (selfishLoop alpha gamma n st g).1.lead ≤ st.attacker + st.honest + st.lead + n := by
  induction n with
  | zero =>
      intro st g ha hh hl
      simp only [selfishLoop]
      omega
  | succ n ih =>
      intro st g ha hh hl
      have hstep := selfishRound_bounds alpha gamma st g ha hh hl
      have hrec := ih (selfishRound alpha gamma st g).1 (selfishRound alpha gamma st g).2
        hstep.1 hstep.2.1 hstep.2.2.1
      simp only [selfishLoop]
      refine ⟨hrec.1, hrec.2.1, hrec.2.2.1, ?_⟩
      have h1 := hrec.2.2.2
      have h2 := hstep.2.2.2
      omega

lemma selfishRound_lead_nonneg (alpha gamma : ℚ) (st : SelfishState) (g : RNG)
    (hl : 0 ≤ st.lead) : 0 ≤ (selfishRound alpha gamma st g).1.lead := by
  obtain ⟨a, b, l⟩ := st
  simp only [selfishRound] at *
  split_ifs <;> simp_all <;> omega

lemma selfishRound_eq_claimRound (alpha gamma : ℚ) (st : SelfishState) (g : RNG)
    (hl : 0 ≤ st.lead) :
    selfishRound alpha gamma st g = claimSelfishRound alpha gamma st g := by
  obtain ⟨a, b, l⟩ := st
  simp only [selfishRound, claimSelfishRound] at *
  by_cases h1 : (RNG.next g).1 < alpha
  · simp only [if_pos h1]
    by_cases h0 : l = 0
    · simp [h0]
    · simp [h0]
  · simp only [if_neg h1]
    by_cases h0 : l = 0
    · simp [h0]
    · by_cases h2 : l = 1
      · simp [h0, h2]
      · have hge : 2 ≤ l := by omega
        simp [h0, h2, if_pos hge]

lemma selfishLoop_eq_claimLoop (alpha gamma : ℚ) (n : ℕ) : ∀ (st : SelfishState) (g : RNG),
    0 ≤ st.lead →
    selfishLoop alpha gamma n st g = claimSelfishLoop alpha gamma n st g := by
  induction n with
  | zero => intro st g _; rfl
  | succ n ih =>
      intro st g hl
      simp only [selfishLoop, claimSelfishLoop]
      rw [← selfishRound_eq_claimRound alpha gamma st g hl]
      exact ih _ _ (selfishRound_lead_nonneg alpha gamma st g hl)

/-- Claim C1: `simulate_selfish_mining` computes exactly the attacker/honest
block counts of the three-way private-lead state machine described in the
spec, including the end-of-run flush of any remaining positive lead. -/
theorem selfish_mining_matches_claim_machine (ss : SeedStream) (alpha gamma : ℚ)
    (rounds : ℕ) (seed : Option ℤ) (g : RNG) :
    (simulate_selfish_mining ss alpha gamma rounds seed g).1.attacker_blocks
        = (claimSelfishSim ss alpha gamma rounds seed g).1 ∧
    (simulate_selfish_mining ss alpha gamma rounds seed g).1.honest_blocks
        = (claimSelfishSim ss alpha gamma rounds seed g).2 := by
  simp only [simulate_selfish_mining, claimSelfishSim]
  rw [selfishLoop_eq_claimLoop alpha gamma rounds ⟨0, 0, 0⟩ (reseed ss seed g) le_rfl]
  exact ⟨rfl, rfl⟩

/-- Claim C2: `total_blocks` is the sum of the two counters; the two relative
rewards sum to 1 whenever `total_blocks > 0` and are both 0 when
`total_blocks = 0`; a zero-rounds run of either simulator has
`total_blocks = 0`. -/
theorem result_conservation (r : SimulationResult) (ss : SeedStream)
    (alpha gamma : ℚ) (seed : Option ℤ) (g : RNG) :
    r.total_blocks = r.attacker_blocks + r.honest_blocks ∧
    (0 < r.total_blocks →
      r.attacker_relative_reward + r.honest_relative_reward = 1) ∧
    (r.total_blocks = 0 →
      r.attacker_relative_reward = 0 ∧ r.honest_relative_reward = 0) ∧
    (simulate_selfish_mining ss alpha gamma 0 seed g).1.total_blocks = 0 ∧
    (simulate_all_honest ss alpha 0 seed g).1.total_blocks = 0 := by
  refine ⟨rfl, ?_, ?_, rfl, rfl⟩
  · intro h
    have hne : r.total_blocks ≠ 0 := by omega
    have hneQ : (r.total_blocks : ℚ) ≠ 0 := Int.cast_ne_zero.mpr hne
    unfold SimulationResult.attacker_relative_reward SimulationResult.honest_relative_reward
    rw [if_neg hne, if_neg hne, div_add_div_same]
    have hsum : ((r.attacker_blocks : ℚ) + (r.honest_blocks : ℚ)) = (r.total_blocks : ℚ) := by
      unfold SimulationResult.total_blocks
      push_cast
      ring
    rw [hsum, div_self hneQ]
  · intro h
    unfold SimulationResult.attacker_relative_reward SimulationResult.honest_relative_reward
    rw [if_pos h, if_pos h]
    exact ⟨rfl, rfl⟩

/-- Concrete result with a positive block total, used to instantiate
`result_conservation`. -/
def resTwoBlocks : SimulationResult :=
  { alpha := 1 / 4, gamma := 0, rounds := 2, attacker_blocks := 1, honest_blocks := 1 }

/-- Concrete result with no blocks, used to instantiate `result_conservation`. -/
def resNoBlocks : SimulationResult :=
  { alpha := 1 / 4, gamma := 0, rounds := 0, attacker_blocks := 0, honest_blocks := 0 }

/-- Witness for `result_conservation` at concrete inputs. -/
theorem result_conservation_witness :
    (0 < resTwoBlocks.total_blocks ∧
      resTwoBlocks.attacker_relative_reward + resTwoBlocks.honest_relative_reward = 1) ∧
    (resNoBlocks.total_blocks = 0 ∧
      resNoBlocks.attacker_relative_reward = 0 ∧ resNoBlocks.honest_relative_reward = 0) := by
  have hpos : 0 < resTwoBlocks.total_blocks := by
    norm_num [resTwoBlocks, SimulationResult.total_blocks]
  have hzero : resNoBlocks.total_blocks = 0 := by
    norm_num [resNoBlocks, SimulationResult.total_blocks]
  exact ⟨⟨hpos, (result_conservation resTwoBlocks ssZero 0 0 none gZero).2.1 hpos⟩,
    ⟨hzero, (result_conservation resNoBlocks ssZero 0 0 none gZero).2.2.1 hzero⟩⟩

/-- Claim C3: for `0 ≤ alpha < 1` the simulated block counters (after the
settlement flush) are non-negative and sum to at most `rounds`. -/
theorem selfish_blocks_bounded (ss : SeedStream) (alpha gamma : ℚ) (rounds : ℕ)
    (seed : Option ℤ) (g : RNG) (h0 : 0 ≤ alpha) (h1 : alpha < 1) :
    0 ≤ (simulate_selfish_mining ss alpha gamma rounds seed g).1.attacker_blocks ∧
    0 ≤ (simulate_selfish_mining ss alpha gamma rounds seed g).1.honest_blocks ∧
    (simulate_selfish_mining ss alpha gamma rounds seed g).1.attacker_blocks +
        (simulate_selfish_mining ss alpha gamma rounds seed g).1.honest_blocks
      ≤ (rounds : ℤ) := by
  have h := selfishLoop_bounds alpha gamma rounds ⟨0, 0, 0⟩ (reseed ss seed g)
    le_rfl le_rfl le_rfl
  simp only [simulate_selfish_mining]
  obtain ⟨ha, hh, hl, hsum⟩ := h
  dsimp only at hsum
  split_ifs with hlead <;> constructor <;> try constructor
  all_goals omega

/-- Witness for `selfish_blocks_bounded` at concrete inputs. -/
theorem selfish_blocks_bounded_witness :
    (0 : ℚ) ≤ 1 / 4 ∧ (1 / 4 : ℚ) < 1 ∧
    (0 ≤ (simulate_selfish_mining ssZero (1 / 4) (1 / 2) 2 none gZero).1.attacker_blocks ∧
      0 ≤ (simulate_selfish_mining ssZero (1 / 4) (1 / 2) 2 none gZero).1.honest_blocks ∧
      (simulate_selfish_mining ssZero (1 / 4) (1 / 2) 2 none gZero).1.attacker_blocks +
          (simulate_selfish_mining ssZero (1 / 4) (1 / 2) 2 none gZero).1.honest_blocks
        ≤ ((2 : ℕ) : ℤ)) :=
  ⟨by norm_num, by norm_num,
    selfish_blocks_bounded ssZero (1 / 4) (1 / 2) 2 none gZero (by norm_num) (by norm_num)⟩

lemma honestLoop_spec (alpha : ℚ) (n : ℕ) : ∀ (a b : ℤ) (g : RNG),
    (honestLoop alpha n (a, b) g).1
      = (a + ∑ i ∈ Finset.range n, (if g i < alpha then (1 : ℤ) else 0),
         b + ∑ i ∈ Finset.range n, (if g i < alpha then (0 : ℤ) else 1)) := by
  induction n with
  | zero => intro a b g; simp [honestLoop]
  | succ n ih =>
      intro a b g
      simp only [honestLoop, RNG.next]
      by_cases h : g 0 < alpha
      · rw [if_pos h, ih]
        rw [Prod.mk.injEq]
        constructor
        · rw [Finset.sum_range_succ']
          simp [h]
          ring
        · rw [Finset.sum_range_succ']
          simp [h]
      · rw [if_neg h, ih]
        rw [Prod.mk.injEq]
        constructor
        · rw [Finset.sum_range_succ']
          simp [h]
        · rw [Finset.sum_range_succ']
          simp [h]
          ring

/-- Claim C4: `simulate_all_honest` credits draw `i` to the attacker exactly
when it is below `alpha` and to the honest pool otherwise, independently per
round; the counts sum to `rounds` and the stored `gamma` is 0. -/
theorem honest_round_attribution (ss : SeedStream) (alpha : ℚ) (rounds : ℕ)
    (seed : Option ℤ) (g : RNG) (h0 : 0 < alpha) (h1 : alpha < 1) :
    (simulate_all_honest ss alpha rounds seed g).1.attacker_blocks
        = ∑ i ∈ Finset.range rounds, (if reseed ss seed g i < alpha then (1 : ℤ) else 0) ∧
    (simulate_all_honest ss alpha rounds seed g).1.honest_blocks
        = ∑ i ∈ Finset.range rounds, (if reseed ss seed g i < alpha then (0 : ℤ) else 1) ∧
    (simulate_all_honest ss alpha rounds seed g).1.attacker_blocks +
        (simulate_all_honest ss alpha rounds seed g).1.honest_blocks = (rounds : ℤ) ∧
    (simulate_all_honest ss alpha rounds seed g).1.gamma = 0 := by
  have h := honestLoop_spec alpha rounds 0 0 (reseed ss seed g)
  simp only [simulate_all_honest, h, zero_add]
  refine ⟨trivial, trivial, ?_, trivial⟩
  have hsum : ∀ i ∈ Finset.range rounds,
      (if reseed ss seed g i < alpha then (1 : ℤ) else 0) +
        (if reseed ss seed g i < alpha then (0 : ℤ) else 1) = 1 := by
    intro i _
    split_ifs <;> ring
  rw [← Finset.sum_add_distrib, Finset.sum_congr rfl hsum, Finset.sum_const,
    Finset.card_range, nsmul_eq_mul, mul_one]

/-- Witness for `honest_round_attribution` at concrete inputs. -/
theorem honest_round_attribution_witness :
    (0 : ℚ) < 1 / 2 ∧ (1 / 2 : ℚ) < 1 ∧
    ((simulate_all_honest ssZero (1 / 2) 1 none gOne).1.attacker_blocks
        = ∑ i ∈ Finset.range 1, (if reseed ssZero none gOne i < 1 / 2 then (1 : ℤ) else 0) ∧
      (simulate_all_honest ssZero (1 / 2) 1 none gOne).1.honest_blocks
        = ∑ i ∈ Finset.range 1, (if reseed ssZero none gOne i < 1 / 2 then (0 : ℤ) else 1) ∧
      (simulate_all_honest ssZero (1 / 2) 1 none gOne).1.attacker_blocks +
          (simulate_all_honest ssZero (1 / 2) 1 none gOne).1.honest_blocks = ((1 : ℕ) : ℤ) ∧
      (simulate_all_honest ssZero (1 / 2) 1 none gOne).1.gamma = 0) :=
  ⟨by norm_num, by norm_num,
    honest_round_attribution ssZero (1 / 2) 1 none gOne (by norm_num) (by norm_num)⟩

/-- Claim C5: the selfish-mining simulator is a total function: for every
input, degenerate ones included, it returns a `SimulationResult` echoing
`alpha`, `gamma` and `rounds`; there is no guard rejecting any input (the
Lean model is total by construction, mirroring the exception-free Python
control flow). -/
theorem selfish_runs_on_all_inputs (ss : SeedStream) (alpha gamma : ℚ)
    (rounds : ℕ) (seed : Option ℤ) (g : RNG) :
    (simulate_selfish_mining ss alpha gamma rounds seed g).1.alpha = alpha ∧
    (simulate_selfish_mining ss alpha gamma rounds seed g).1.gamma = gamma ∧
    (simulate_selfish_mining ss alpha gamma rounds seed g).1.rounds = rounds :=
  ⟨rfl, rfl, rfl⟩

/-- Counterexample to Claim C6 as stated: with `seed = None`, the per-chain
run and the single-chain baseline consume different segments of the ambient
stream, so `multiplier_effect` need not be 1.  Here the chain run yields zero
attacker revenue while the baseline yields positive revenue, giving
multiplier 0. -/
theorem cross_chain_multiplier_counterexample :
    (cross_chain_attack ssZero (1 / 2) 1 0 1 none gOne).1.multiplier_effect ≠ 1 := by
  have h : (cross_chain_attack ssZero (1 / 2) 1 0 1 none gOne).1.multiplier_effect = 0 := by
    norm_num [cross_chain_attack, crossChainLoop, simulate_selfish_mining, selfishLoop,
      selfishRound, RNG.next, reseed, ssZero, gOne, SimulationResult.attacker_revenue_btc]
  rw [h]
  norm_num

lemma crossChainLoop_one (ss : SeedStream) (alpha gamma : ℚ) (rounds : ℕ)
    (s : ℤ) (g : RNG) :
    crossChainLoop ss alpha gamma rounds (some s) (1 : ℤ).toNat 0 0 g
      = ((simulate_selfish_mining ss alpha gamma rounds (some s) g).1.attacker_revenue_btc,
         (simulate_selfish_mining ss alpha gamma rounds (some s) g).2) := by
  show crossChainLoop ss alpha gamma rounds (some s) (0 + 1) 0 0 g = _
  simp only [crossChainLoop]
  norm_num

/-- Claim C6 (amended): for `num_chains = 1` and every explicitly given
integer seed the multiplier effect is exactly 1; with `seed = None` the claim
fails (see the counterexample). -/
theorem cross_chain_multiplier_one_with_seed (ss : SeedStream) (alpha gamma : ℚ)
    (rounds_per_chain : ℕ) (s : ℤ) (g : RNG) :
    (cross_chain_attack ss alpha 1 gamma rounds_per_chain (some s) g).1.multiplier_effect = 1 := by
  simp only [cross_chain_attack, crossChainLoop_one]
  have hrerun : simulate_selfish_mining ss alpha gamma rounds_per_chain (some s)
      (simulate_selfish_mining ss alpha gamma rounds_per_chain (some s) g).2
      = simulate_selfish_mining ss alpha gamma rounds_per_chain (some s) g := rfl
  rw [hrerun]
  simp only [Int.cast_one, sub_self, mul_zero, sub_zero, mul_one]
  split_ifs with h
  · exact div_self (ne_of_gt h)
  · rfl

/-- Claim C7: the defended-variant wrapper runs the engine at `gamma_attack`
with the given seed; when the defense is enabled and an integer seed is given,
the defended run uses `gamma_defense` with the seed offset by 1 on the stream
left by the first run; when the defense is disabled both components are the
same no-defense result. -/
theorem defense_wrapper_runs (ss : SeedStream) (alpha gamma_attack gamma_defense : ℚ)
    (rounds : ℕ) (seed : Option ℤ) (g : RNG) :
    (simulate_selfish_with_defense ss alpha gamma_attack gamma_defense rounds false seed g).1
        = ((simulate_selfish_mining ss alpha gamma_attack rounds seed g).1,
           (simulate_selfish_mining ss alpha gamma_attack rounds seed g).1) ∧
    (∀ s : ℤ, seed = some s →
      (simulate_selfish_with_defense ss alpha gamma_attack gamma_defense rounds true seed g).1
        = ((simulate_selfish_mining ss alpha gamma_attack rounds seed g).1,
           (simulate_selfish_mining ss alpha gamma_defense rounds (some (s + 1))
              (simulate_selfish_mining ss alpha gamma_attack rounds seed g).2).1)) := by
  constructor
  · rfl
  · intro s hs
    subst hs
    rfl

/-- Witness for `defense_wrapper_runs` at concrete inputs. -/
theorem defense_wrapper_runs_witness :
    ((simulate_selfish_with_defense ssZero (1 / 4) (9 / 10) (1 / 2) 1 false (some 7) gZero).1
        = ((simulate_selfish_mining ssZero (1 / 4) (9 / 10) 1 (some 7) gZero).1,
           (simulate_selfish_mining ssZero (1 / 4) (9 / 10) 1 (some 7) gZero).1)) ∧
    ((some (7 : ℤ) : Option ℤ) = some 7 ∧
      (simulate_selfish_with_defense ssZero (1 / 4) (9 / 10) (1 / 2) 1 true (some 7) gZero).1
        = ((simulate_selfish_mining ssZero (1 / 4) (9 / 10) 1 (some 7) gZero).1,
           (simulate_selfish_mining ssZero (1 / 4) (1 / 2) 1 (some (7 + 1))
              (simulate_selfish_mining ssZero (1 / 4) (9 / 10) 1 (some 7) gZero).2).1)) :=
  ⟨(defense_wrapper_runs ssZero (1 / 4) (9 / 10) (1 / 2) 1 (some 7) gZero).1,
    rfl, (defense_wrapper_runs ssZero (1 / 4) (9 / 10) (1 / 2) 1 (some 7) gZero).2 7 rfl⟩

lemma mev_advantage_formula (ss : SeedStream) (alpha p m gamma : ℚ) (rounds : ℕ)
    (seed : Option ℤ) (g : RNG) :
    (mev_transaction_ordering ss alpha p m gamma rounds seed g).1.revenue_advantage_vs_honest
      = ((mev_transaction_ordering ss alpha p m gamma rounds seed g).1.total_enhanced_revenue_btc
          - (mev_transaction_ordering ss alpha p m gamma rounds seed g).1.honest_revenue_btc)
        / (if 0 < (mev_transaction_ordering ss alpha p m gamma rounds seed g).1.honest_revenue_btc
           then (mev_transaction_ordering ss alpha p m gamma rounds seed g).1.honest_revenue_btc
           else 1) := rfl

/-- Claim C8: the derived ratios recover locally from zero denominators:
`efficiency_advantage` divides by `alpha` only when `alpha > 0` and is 0 at
`alpha ≤ 0`; the MEV revenue advantage divides by the honest revenue when it
is positive and by 1 when it is zero. -/
theorem ratio_guards (r : SimulationResult) (ss : SeedStream)
    (alpha p m gamma : ℚ) (rounds : ℕ) (seed : Option ℤ) (g : RNG) :
    (0 < r.alpha →
      r.efficiency_advantage = r.attacker_relative_reward / r.alpha) ∧
    (r.alpha ≤ 0 → r.efficiency_advantage = 0) ∧
    (0 < (mev_transaction_ordering ss alpha p m gamma rounds seed g).1.honest_revenue_btc →
      (mev_transaction_ordering ss alpha p m gamma rounds seed g).1.revenue_advantage_vs_honest
        = ((mev_transaction_ordering ss alpha p m gamma rounds seed g).1.total_enhanced_revenue_btc
            - (mev_transaction_ordering ss alpha p m gamma rounds seed g).1.honest_revenue_btc)
          / (mev_transaction_ordering ss alpha p m gamma rounds seed g).1.honest_revenue_btc) ∧
    ((mev_transaction_ordering ss alpha p m gamma rounds seed g).1.honest_revenue_btc = 0 →
      (mev_transaction_ordering ss alpha p m gamma rounds seed g).1.revenue_advantage_vs_honest
        = ((mev_transaction_ordering ss alpha p m gamma rounds seed g).1.total_enhanced_revenue_btc
            - (mev_transaction_ordering ss alpha p m gamma rounds seed g).1.honest_revenue_btc)
          / 1) := by
  refine ⟨?_, ?_, ?_, ?_⟩
  · intro h
    unfold SimulationResult.efficiency_advantage
    rw [if_neg (not_le.mpr h)]
  · intro h
    unfold SimulationResult.efficiency_advantage
    rw [if_pos h]
  · intro h
    rw [mev_advantage_formula, if_pos h]
  · intro h
    rw [mev_advantage_formula, if_neg (by rw [h]; exact lt_irrefl 0)]

/-- Concrete result with positive `alpha`, used to instantiate `ratio_guards`. -/
def resAlphaPos : SimulationResult :=
  { alpha := 1 / 4, gamma := 0, rounds := 4, attacker_blocks := 1, honest_blocks := 3 }

/-- Concrete result with `alpha = 0`, used to instantiate `ratio_guards`. -/
def resAlphaZero : SimulationResult :=
  { alpha := 0, gamma := 0, rounds := 4, attacker_blocks := 1, honest_blocks := 3 }

/-- Witness for `ratio_guards` at concrete inputs. -/
theorem ratio_guards_witness :
    (0 < resAlphaPos.alpha ∧
      resAlphaPos.efficiency_advantage
        = resAlphaPos.attacker_relative_reward / resAlphaPos.alpha) ∧
    (resAlphaZero.alpha ≤ 0 ∧ resAlphaZero.efficiency_advantage = 0) ∧
    (0 < (mev_transaction_ordering ssZero (1 / 2) (1 / 2) (5 / 2) 0 1 none gOne).1.honest_revenue_btc ∧
      (mev_transaction_ordering ssZero (1 / 2) (1 / 2) (5 / 2) 0 1 none gOne).1.revenue_advantage_vs_honest
        = ((mev_transaction_ordering ssZero (1 / 2) (1 / 2) (5 / 2) 0 1 none gOne).1.total_enhanced_revenue_btc
            - (mev_transaction_ordering ssZero (1 / 2) (1 / 2) (5 / 2) 0 1 none gOne).1.honest_revenue_btc)
          / (mev_transaction_ordering ssZero (1 / 2) (1 / 2) (5 / 2) 0 1 none gOne).1.honest_revenue_btc) ∧
    ((mev_transaction_ordering ssZero (1 / 2) (1 / 2) (5 / 2) 0 0 none gOne).1.honest_revenue_btc = 0 ∧
      (mev_transaction_ordering ssZero (1 / 2) (1 / 2) (5 / 2) 0 0 none gOne).1.revenue_advantage_vs_honest
        = ((mev_transaction_ordering ssZero (1 / 2) (1 / 2) (5 / 2) 0 0 none gOne).1.total_enhanced_revenue_btc
            - (mev_transaction_ordering ssZero (1 / 2) (1 / 2) (5 / 2) 0 0 none gOne).1.honest_revenue_btc)
          / 1) := by
  have hpos : 0 < resAlphaPos.alpha := by norm_num [resAlphaPos]
  have hzero : resAlphaZero.alpha ≤ 0 := by norm_num [resAlphaZero]
  have hrev : 0 < (mev_transaction_ordering ssZero (1 / 2) (1 / 2) (5 / 2) 0 1 none gOne).1.honest_revenue_btc := by
    norm_num [mev_transaction_ordering, simulate_selfish_mining, selfishLoop, selfishRound,
      RNG.next, reseed, ssZero, gOne, SimulationResult.honest_revenue_btc,
      SimulationResult.attacker_revenue_btc, pyInt]
  have hrev0 : (mev_transaction_ordering ssZero (1 / 2) (1 / 2) (5 / 2) 0 0 none gOne).1.honest_revenue_btc = 0 := by
    norm_num [mev_transaction_ordering, simulate_selfish_mining, selfishLoop, selfishRound,
      RNG.next, reseed, ssZero, gOne, SimulationResult.honest_revenue_btc,
      SimulationResult.attacker_revenue_btc, pyInt]
  exact ⟨⟨hpos, (ratio_guards resAlphaPos ssZero (1 / 2) (1 / 2) (5 / 2) 0 1 none gOne).1 hpos⟩,
    ⟨hzero, (ratio_guards resAlphaZero ssZero (1 / 2) (1 / 2) (5 / 2) 0 1 none gOne).2.1 hzero⟩,
    ⟨hrev, (ratio_guards resAlphaPos ssZero (1 / 2) (1 / 2) (5 / 2) 0 1 none gOne).2.2.1 hrev⟩,
    ⟨hrev0, (ratio_guards resAlphaPos ssZero (1 / 2) (1 / 2) (5 / 2) 0 0 none gOne).2.2.2 hrev0⟩⟩

/-- Claim C9: pool-cooperative mining is exactly the selfish-mining run at the
effective hash share `max(0, alpha - 0.02*(num_pools - 1))`, with the stored
`alpha` field relabeled afterwards to the requested nominal value and every
other field taken from the effective-alpha run. -/
theorem pool_mining_relabels_alpha (ss : SeedStream) (alpha : ℚ) (num_pools : ℤ)
    (gamma : ℚ) (rounds : ℕ) (seed : Option ℤ) (g : RNG) :
    (pool_cooperative_mining ss alpha num_pools gamma rounds seed g).1
        = { (simulate_selfish_mining ss (max 0 (alpha - (2 / 100) * ((num_pools : ℚ) - 1)))
              gamma rounds seed g).1 with alpha := alpha } ∧
    (pool_cooperative_mining ss alpha num_pools gamma rounds seed g).2
        = (simulate_selfish_mining ss (max 0 (alpha - (2 / 100) * ((num_pools : ℚ) - 1)))
            gamma rounds seed g).2 :=
  ⟨rfl, rfl⟩

/-- Claim C10: with the defense enabled and `seed = None`, the defended run is
also invoked with `seed = None`: neither inner run reseeds (the result does
not depend on the seed-stream family at all) and the two runs consume the
ambient stream in sequence. -/
theorem defense_seed_none_no_reseed (ss ss2 : SeedStream)
    (alpha gamma_attack gamma_defense : ℚ) (rounds : ℕ) (g : RNG) :
    simulate_selfish_with_defense ss alpha gamma_attack gamma_defense rounds true none g
      = (((simulate_selfish_mining ss2 alpha gamma_attack rounds none g).1,
          (simulate_selfish_mining ss2 alpha gamma_defense rounds none
             (simulate_selfish_mining ss2 alpha gamma_attack rounds none g).2).1),
         (simulate_selfish_mining ss2 alpha gamma_defense rounds none
            (simulate_selfish_mining ss2 alpha gamma_attack rounds none g).2).2) := rfl

end BTCQuant
